import Mathlib

/-!
# Verification of the Leaf ↔ Dew (cc-mem) sync reconciliation engine

Shallow embedding of the reconciliation logic of the `dewsync` feature:
the pure mappers (`src/services/dewsync/mappers.ts`), the per-book pull/merge
logic of the `useDewSync` hook (progress pull, notes pull, notes push), and
the library pull/push pass of `useDewLibrarySync`.

Modelling conventions:
* TS `number` timestamps are `Nat` (milliseconds); page numbers are `Int`.
* TS optional fields are `Option _`; JS truthiness of an optional string is
  "present and non-empty", of an optional number "present and non-zero".
* The transport client returns `{ success, data?, isNetworkError? }`; the
  log-only `message` field is omitted.  External collaborators (download,
  file loading, note creation) are oracles passed in as arguments.
* `Date.now()` is an explicit `now` argument; `new Date(s).getTime()` is the
  identity on already-numeric timestamps.
-/

/-- JS truthiness of an optional string: present and non-empty. -/
def optTruthy (o : Option String) : Bool :=
  match o with
  | some s => s != ""
  | none => false

/-- JS truthiness of an optional number: present and non-zero. -/
def numTruthy (o : Option Nat) : Bool :=
  match o with
  | some n => n != 0
  | none => false

/-- JS `o || ''` on an optional string. -/
def optOrEmpty (o : Option String) : String :=
  o.getD ("")

/-- JS `o || d` on an optional string: the stored value unless absent or empty. -/
def strOrDefault (o : Option String) (d : String) : String :=
  match o with
  | some s => if s = "" then d else s
  | none => d

/-- JS object read `m[k]`, over an insertion-ordered association list. -/
def lookupAssoc : List (String × String) → String → Option String
  | [], _ => none
  | kv :: l, k => if kv.1 = k then some kv.2 else lookupAssoc l k

/-- JS object write `m[k] = v`: replace the entry in place, else append. -/
def setAssoc : List (String × String) → String → String → List (String × String)
  | [], k, v => [(k, v)]
  | kv :: l, k, v => if kv.1 = k then (k, v) :: l else kv :: setAssoc l k v

/-- JS truthiness of the result of an object read (`!syncedIds[id]` guards). -/
def strTruthyOpt (o : Option String) : Bool :=
  match o with
  | some s => s != ""
  | none => false

/-- `Array.prototype.findIndex` over a list. -/
def findIndex (p : α → Bool) : List α → Option Nat
  | [] => none
  | a :: l => if p a then some 0 else (findIndex p l).map (· + 1)

/-- Result shape of every `DewSyncClient` call (`{ success, data?, isNetworkError? }`). -/
structure DewResult (α : Type) where
  success : Bool
  data : Option α
  isNetworkError : Bool
deriving DecidableEq

/-- A Leaf library book (the fields the sync engine reads and writes). -/
structure Book where
  hash : String
  title : String
  author : String
  format : String
  progress : Option (Int × Int)
  readingStatus : Option String
  createdAt : Nat
  updatedAt : Nat
  deletedAt : Option Nat
deriving DecidableEq

/-- A Leaf book note / highlight (the fields the sync engine reads and writes). -/
structure BookNote where
  id : String
  bookHash : String
  type : String
  cfi : String
  text : Option String
  style : Option String
  color : Option String
  note : String
  createdAt : Nat
  updatedAt : Nat
  deletedAt : Option Nat
deriving DecidableEq

/-- A remote cc-mem document snapshot, as consumed by `dewDocumentToBook`. -/
structure DewDocument where
  id : String
  title : String
  author : String
  mimeType : Option String
  totalPages : Option Int
  currentPage : Option Int
  readingStatus : Option String
  createdAt : Nat
  updatedAt : Nat
deriving DecidableEq

/-- The structured metadata bag attached to a remote note (`NoteMetadata`). -/
structure NoteMetadata where
  cfi : Option String
  style : Option String
  color : Option String
  type : Option String
  text : Option String
  leafNoteId : Option String
  updatedAt : Option Nat
  deletedAt : Option Nat
deriving DecidableEq

/-- A remote cc-mem note snapshot (`DewNote`), metadata already parsed. -/
structure DewNote where
  id : String
  content : String
  metadata : Option NoteMetadata
  createdAt : Nat
  updatedAt : Nat
deriving DecidableEq

/-- The payload of `updateProgress` built by `progressToUpdate`. -/
structure ProgressUpdate where
  documentId : String
  currentPage : Int
  status : Option String
deriving DecidableEq

/-- `progressToUpdate` (mappers.ts): Leaf 1-based page → cc-mem 0-based page,
`Math.max(0, current - 1)`, plus the status mapping; `null` when the book has
no progress. -/
def progressToUpdate (documentId : String) (book : Book) : Option ProgressUpdate :=
  match book.progress with
  | none => none
  | some (current, _) =>
    let currentPage := max 0 (current - 1)
    let status : Option String :=
      if book.readingStatus = some ("finished") then some ("completed")
      else if book.readingStatus = some ("reading") then some ("reading")
      else none
    some { documentId := documentId, currentPage := currentPage, status := status }

/-- `MIME_TO_FORMAT` lookup table of mappers.ts. -/
def mimeToFormat (m : String) : Option String :=
  if m = "application/epub+zip" then some ("EPUB")
  else if m = "application/pdf" then some ("PDF")
  else if m = "application/x-mobipocket-ebook" then some ("MOBI")
  else if m = "application/octet-stream" then some ("EPUB")
  else none

/-- `dewStatusToReadingStatus` of mappers.ts. -/
def dewStatusToReadingStatus (status : Option String) : Option String :=
  match status with
  | none => none
  | some s =>
    if s = "" then none
    else if s = "completed" then some ("finished")
    else if s = "reading" then some ("reading")
    else some ("unread")

/-- `guessFormatFromFilename` of mappers.ts. -/
def guessFormatFromFilename (title : String) : String :=
  let lower := title.toLower
  if lower.endsWith (".pdf") then ("PDF")
  else if lower.endsWith (".mobi") then ("MOBI")
  else if lower.endsWith (".azw") || lower.endsWith (".azw3") then ("AZW3")
  else if lower.endsWith (".fb2") || lower.endsWith (".fbz") then ("FB2")
  else if lower.endsWith (".cbz") then ("CBZ")
  else if lower.endsWith (".txt") then ("TXT")
  else ("EPUB")

/-- The `Partial<Book>` produced by `dewDocumentToBook`. -/
structure PartialBook where
  title : String
  author : String
  format : String
  readingStatus : Option String
  createdAt : Nat
  updatedAt : Nat
  progress : Option (Int × Int)
deriving DecidableEq

/-- `dewDocumentToBook` (mappers.ts): remote 0-based `currentPage` becomes the
1-based `progress` pair `[currentPage + 1, totalPages]` when both page fields
are present. -/
def dewDocumentToBook (doc : DewDocument) : PartialBook :=
  let format :=
    match doc.mimeType with
    | some m =>
      if m ≠ "" then (mimeToFormat m).getD (guessFormatFromFilename doc.title)
      else guessFormatFromFilename doc.title
    | none => guessFormatFromFilename doc.title
  { title := doc.title
    author := doc.author
    format := format
    readingStatus := dewStatusToReadingStatus doc.readingStatus
    createdAt := doc.createdAt
    updatedAt := doc.updatedAt
    progress :=
      match doc.currentPage, doc.totalPages with
      | some c, some t => some (c + 1, t)
      | _, _ => none }

/-- `Array.prototype.join('\n')`. -/
def joinNl : List String → String
  | [] => ""
  | [p] => p
  | p :: ps => p ++ "\n" ++ joinNl ps

/-- `Array.prototype.join(', ')`. -/
def joinComma : List String → String
  | [] => ""
  | [p] => p
  | p :: ps => p ++ ", " ++ joinComma ps

/-- `noteToContent` (mappers.ts): quoted text, then the `Note:` line, then the
bracketed style/color/type metadata line, joined with newlines. -/
def noteToContent (note : BookNote) : String :=
  let parts : List String :=
    (if optTruthy note.text then ["> " ++ optOrEmpty note.text] else []) ++
    (if note.note ≠ "" then ["Note: " ++ note.note] else []) ++
    (let meta : List String :=
      (if optTruthy note.style then ["style:" ++ optOrEmpty note.style] else []) ++
      (if optTruthy note.color then ["color:" ++ optOrEmpty note.color] else []) ++
      (if note.type ≠ "" then ["type:" ++ note.type] else [])
     if meta ≠ [] then ["[" ++ joinComma meta ++ "]"] else [])
  joinNl parts

/-- The whitespace class of the regex `\s` restricted to characters that can
occur inside a single line (no `\n`). -/
def isJsSpace (c : Char) : Bool :=
  c = ' ' || c = '\t' || c = '\r' || c = '\x0b' || c = '\x0c'

/-- Split a character list at `'\n'` into lines (the line decomposition that
the `m` flag of a JS regex anchors `^`/`$` on). -/
def splitNl : List Char → List (List Char)
  | [] => [[]]
  | c :: cs =>
    match splitNl cs with
    | [] => [[]]
    | l :: ls => if c = '\n' then [] :: l :: ls else (c :: l) :: ls

/-- One line matched against `/^Note:\s*(.+)$/`: the line must start with
`Note:`; greedy `\s*` then a non-empty `(.+)` capture, with the usual
backtracking when the remainder is all whitespace. -/
def matchNoteLine (line : List Char) : Option (List Char) :=
  if ("Note:").data.isPrefixOf line then
    let r := line.drop 5
    let s := r.dropWhile isJsSpace
    if s.isEmpty then
      match r.reverse with
      | [] => none
      | c :: _ => some [c]
    else some s
  else none

/-- `content.match(/^Note:\s*(.+)$/m)`: the capture of the first line that
matches, over the line decomposition of the content. -/
def extractNoteChars (content : List Char) : List Char :=
  match (splitNl content).findSome? matchNoteLine with
  | some s => s
  | none => []

/-- `extractNoteText` (mappers.ts): `match?.[1] ?? ''`. -/
def extractNoteText (content : String) : String :=
  String.mk (extractNoteChars content.data)

/-- `metadata.updatedAt || fallback`: the logical update time of a remote
note, falling back to the transport-level update time. -/
def metaUpdatedAt (metadata : NoteMetadata) (fallback : Nat) : Nat :=
  match metadata.updatedAt with
  | some u => if u ≠ 0 then u else fallback
  | none => fallback

/-- The external-note branch of `dewNoteToBookNote`: a note created outside
Leaf becomes a fresh annotation without a positional anchor. -/
def externalBookNote (dewNote : DewNote) (bookHash : String) : BookNote :=
  { bookHash := bookHash
    id := "dew-" ++ dewNote.id
    type := "annotation"
    cfi := ""
    text := some dewNote.content
    style := none
    color := none
    note := ""
    createdAt := dewNote.createdAt
    updatedAt := dewNote.updatedAt
    deletedAt := none }

/-- `dewNoteToBookNote` (mappers.ts): reconstruct a Leaf note from structured
metadata when it carries a `leafNoteId`, otherwise the external-note shape. -/
def dewNoteToBookNote (dewNote : DewNote) (bookHash : String) : BookNote :=
  match dewNote.metadata with
  | some metadata =>
    if optTruthy metadata.leafNoteId then
      { bookHash := bookHash
        id := optOrEmpty metadata.leafNoteId
        type := strOrDefault metadata.type ("annotation")
        cfi := optOrEmpty metadata.cfi
        text := metadata.text
        style := metadata.style
        color := metadata.color
        note := extractNoteText dewNote.content
        createdAt := dewNote.createdAt
        updatedAt := metaUpdatedAt metadata dewNote.updatedAt
        deletedAt := metadata.deletedAt }
    else externalBookNote dewNote bookHash
  | none => externalBookNote dewNote bookHash

/-! ## Progress pull (`pullProgressOnOpen` in useDewSync) -/

/-- The local state read and written by a progress pull: the progress pair of
the open book, the progress cursor `dewLastProgressSyncAt || 0`, and the
book's reading status. -/
structure ProgressPullState where
  progress : Option (Int × Int)
  cursor : Nat
  readingStatus : Option String
deriving DecidableEq

/-- `book.progress?.[0] ?? 0`: the local current page. -/
def localCurrentPage (st : ProgressPullState) : Int :=
  match st.progress with
  | some (c, _) => c
  | none => 0

/-- `pullProgressOnOpen` (useDewSync): merge one remote progress snapshot with
"furthest progress wins".  The remote page is converted to 1-based; the
remote value is applied iff the remote update time is strictly newer than the
progress cursor and the converted page strictly ahead of the local page; the
cursor is set to `now` in both branches.  Missing remote page fields return
early with no state change. -/
def pullProgressOnOpen (remoteUpdatedAt : Nat) (remoteCurrentPage remoteTotalPages : Option Int)
    (remoteStatus : Option String) (st : ProgressPullState) (now : Nat) : ProgressPullState :=
  match remoteCurrentPage, remoteTotalPages with
  | some rc, some rt =>
    let remotePageOneBased := rc + 1
    if remoteUpdatedAt > st.cursor ∧ remotePageOneBased > localCurrentPage st then
      { progress := some (remotePageOneBased, rt)
        cursor := now
        readingStatus :=
          if remoteStatus = some ("completed") ∧ st.readingStatus ≠ some ("finished") then
            some ("finished")
          else st.readingStatus }
    else { st with cursor := now }
  | _, _ => st

/-! ## Notes pull (`pullNotesOnOpen` in useDewSync) -/

/-- The accumulator of the notes merge loop: working copies of `booknotes`
and `dewSyncedNoteIds` plus the `changed` flag. -/
structure NotesMergeState where
  booknotes : List BookNote
  dewSyncedNoteIds : List (String × String)
  changed : Bool
deriving DecidableEq

/-- The external-note branch of the merge loop: insert only when no local
note already carries the reconstructed identifier. -/
def mergeExternalNote (st : NotesMergeState) (remoteNote : DewNote)
    (remoteBookNote : BookNote) : NotesMergeState :=
  match findIndex (fun n => n.id == remoteBookNote.id) st.booknotes with
  | some _ => st
  | none =>
    { booknotes := st.booknotes ++ [remoteBookNote]
      dewSyncedNoteIds := setAssoc st.dewSyncedNoteIds remoteBookNote.id remoteNote.id
      changed := true }

/-- One iteration of the notes merge loop of `pullNotesOnOpen`: origin-tagged
notes get LWW with soft-delete arbitration against the local note with the
same `leafNoteId`; untagged notes take the external-note branch. -/
def mergeRemoteNote (bookHash : String) (st : NotesMergeState) (remoteNote : DewNote) :
    NotesMergeState :=
  let remoteBookNote := dewNoteToBookNote remoteNote bookHash
  match remoteNote.metadata with
  | some metadata =>
    if optTruthy metadata.leafNoteId then
      let leafNoteId := optOrEmpty metadata.leafNoteId
      match findIndex (fun n => n.id == leafNoteId) st.booknotes with
      | some localIdx =>
        match st.booknotes[localIdx]? with
        | some localNote =>
          let remoteUpdatedAt := metaUpdatedAt metadata remoteNote.updatedAt
          if numTruthy metadata.deletedAt then
            let dTime := metadata.deletedAt.getD 0
            if localNote.updatedAt > dTime then st
            else
              { st with
                booknotes := st.booknotes.set localIdx { localNote with deletedAt := some dTime }
                changed := true }
          else if remoteUpdatedAt > localNote.updatedAt then
            { booknotes := st.booknotes.set localIdx remoteBookNote
              dewSyncedNoteIds := setAssoc st.dewSyncedNoteIds leafNoteId remoteNote.id
              changed := true }
          else
            { st with dewSyncedNoteIds := setAssoc st.dewSyncedNoteIds leafNoteId remoteNote.id }
        | none => st
      | none =>
        { booknotes := st.booknotes ++ [remoteBookNote]
          dewSyncedNoteIds := setAssoc st.dewSyncedNoteIds leafNoteId remoteNote.id
          changed := true }
    else mergeExternalNote st remoteNote remoteBookNote
  | none => mergeExternalNote st remoteNote remoteBookNote

/-- The per-book note-sync configuration read and written by a notes pull. -/
structure NotesConfig where
  booknotes : List BookNote
  dewSyncedNoteIds : List (String × String)
  dewLastNotesSyncAt : Option Nat
deriving DecidableEq

/-- `pullNotesOnOpen` (useDewSync): a failed batch fetch changes nothing; an
empty batch only advances `dewLastNotesSyncAt`; otherwise the batch is merged
note by note and the cursor is advanced whether or not anything changed. -/
def pullNotesOnOpen (fetch : DewResult (List DewNote)) (bookHash : String)
    (cfg : NotesConfig) (now : Nat) : NotesConfig :=
  match fetch.success, fetch.data with
  | true, some remoteNotes =>
    if remoteNotes.isEmpty then { cfg with dewLastNotesSyncAt := some now }
    else
      let st := remoteNotes.foldl (mergeRemoteNote bookHash)
        { booknotes := cfg.booknotes
          dewSyncedNoteIds := cfg.dewSyncedNoteIds
          changed := false }
      if st.changed then
        { booknotes := st.booknotes
          dewSyncedNoteIds := st.dewSyncedNoteIds
          dewLastNotesSyncAt := some now }
      else { cfg with dewLastNotesSyncAt := some now }
  | _, _ => cfg

/-! ## Notes push (`debouncedNotesSync` in useDewSync) -/

/-- Result of `addNote`: `data?.id` of the created remote note. -/
structure AddNoteResult where
  success : Bool
  id : Option String
  isNetworkError : Bool
deriving DecidableEq

/-- The push selection filter: annotation/excerpt kind, not soft-deleted,
non-empty text, not already in `dewSyncedNoteIds`. -/
def notesPushFilter (dewSyncedNoteIds : List (String × String)) (n : BookNote) : Bool :=
  (n.type == "annotation" || n.type == "excerpt") &&
    !numTruthy n.deletedAt && optTruthy n.text &&
    !strTruthyOpt (lookupAssoc dewSyncedNoteIds n.id)

/-- Recording after one `addNote` call: on success the synced map stores the
returned remote identifier, falling back to the note's own id when the create
step delivered none (`updatedSyncedIds[note.id] = noteId || note.id`). -/
def recordPushResult (updatedSyncedIds : List (String × String)) (note : BookNote)
    (result : AddNoteResult) : List (String × String) :=
  if result.success then
    let noteId := optOrEmpty result.id
    setAssoc updatedSyncedIds note.id (if noteId ≠ "" then noteId else note.id)
  else updatedSyncedIds

/-- `debouncedNotesSync` (useDewSync, structured push): the attempted batch
and the synced-identifier map after the loop, with the per-note `addNote`
outcome supplied as an oracle. -/
def pushNewNotes (booknotes : List BookNote) (dewSyncedNoteIds : List (String × String))
    (outcome : BookNote → AddNoteResult) : List BookNote × List (String × String) :=
  let newNotes := booknotes.filter (notesPushFilter dewSyncedNoteIds)
  (newNotes, newNotes.foldl (fun acc note => recordPushResult acc note (outcome note)) dewSyncedNoteIds)

/-! ## Library pull (`pullLibrary` / `processRemoteDocument` in useDewLibrarySync) -/

/-- A downloaded file payload; only its size is inspected by the engine. -/
structure Blob where
  size : Nat
deriving DecidableEq

/-- `s.toLowerCase().trim()`: the normalisation applied to titles and authors
before the dedup comparison. -/
def normalizeMeta (s : String) : String :=
  s.toLower.trim

/-- The dedup predicate of `processRemoteDocument`: a non-deleted local book
whose normalised title and author match the remote document's. -/
def libraryMatch (doc : DewDocument) (book : Book) : Bool :=
  (normalizeMeta book.title == normalizeMeta doc.title) &&
    (normalizeMeta book.author == normalizeMeta doc.author) &&
    !numTruthy book.deletedAt

/-- The metadata overlay applied to a freshly imported book: remote reading
status and progress are copied in when present, and `updatedAt` is stamped
with `Date.now()`. -/
def mergeImportedBook (doc : DewDocument) (importedBook : Book) (now : Nat) : Book :=
  let partialBook := dewDocumentToBook doc
  let b1 :=
    if optTruthy partialBook.readingStatus then
      { importedBook with readingStatus := partialBook.readingStatus }
    else importedBook
  let b2 :=
    if partialBook.progress.isSome then { b1 with progress := partialBook.progress }
    else b1
  { b2 with updatedAt := now }

/-- `processRemoteDocument` (useDewLibrarySync): skip when a non-deleted local
book matches by normalised title+author; otherwise download (skipping failed
or empty payloads), import via the importer oracle, overlay remote metadata,
and replace-or-append by hash.  Returns the updated library and whether
an import happened. -/
def processRemoteDocument (doc : DewDocument) (currentLibrary storeLibrary : List Book)
    (download : DewResult Blob) (importResult : Option Book) (now : Nat) :
    List Book × Bool :=
  match currentLibrary.find? (libraryMatch doc) with
  | some _ => (storeLibrary, false)
  | none =>
    match download.success, download.data with
    | true, some blob =>
      if blob.size = 0 then (storeLibrary, false)
      else
        match importResult with
        | some importedBook =>
          let merged := mergeImportedBook doc importedBook now
          match findIndex (fun b => b.hash == merged.hash) storeLibrary with
          | some bookIdx => (storeLibrary.set bookIdx merged, true)
          | none => (storeLibrary ++ [merged], true)
        | none => (storeLibrary, false)
    | _, _ => (storeLibrary, false)

/-- The state of one library pull pass: the library list and the
`lastLibrarySyncAt` cursor. -/
structure LibraryPass where
  library : List Book
  cursor : Option Nat
deriving DecidableEq

/-- `pullLibrary` (useDewLibrarySync): a failed or empty batch fetch changes
nothing; otherwise every document is processed (the dedup check runs against
the library snapshot taken before the loop) and the cursor is then set to the
pass's time. -/
def pullLibrary (st : LibraryPass) (fetch : DewResult (List DewDocument))
    (download : DewDocument → DewResult Blob)
    (importResult : DewDocument → List Book → Option Book) (now : Nat) : LibraryPass :=
  match fetch.success, fetch.data with
  | true, some documents =>
    if documents.isEmpty then st
    else
      let lib := documents.foldl
        (fun acc doc =>
          (processRemoteDocument doc st.library acc (download doc) (importResult doc acc) now).1)
        st.library
      { library := lib, cursor := some now }
  | _, _ => st

/-! ## Upload call paths (zero-byte guard) -/

/-- Network actions relevant to the zero-byte upload guard. -/
inductive SyncAction where
  | getDocAction (id : String)
  | searchAction (query : String)
  | uploadAction (size : Nat)
deriving DecidableEq

/-- The search-then-upload phase shared by the blob-converting `doUpload`
variants: search by title first; on a miss, upload only when the converted
blob is non-empty. -/
def doUploadSearchPhase (title : String) (searchOk : Bool) (searchFound : Option String)
    (blobSize : Nat) : List SyncAction :=
  SyncAction.searchAction title ::
    (if searchOk && strTruthyOpt searchFound then []
     else if blobSize = 0 then []
     else [SyncAction.uploadAction blobSize])

/-- `doUpload` (useDewSync, blob-converting variant): verify a stored
`dewDocumentId` first, then search by title, then upload the converted blob
behind the `blob.size === 0` guard. -/
def doUpload (storedId : Option String) (getDocOk : Bool) (title : String)
    (searchOk : Bool) (searchFound : Option String) (blobSize : Nat) : List SyncAction :=
  match storedId with
  | some id =>
    if getDocOk then [SyncAction.getDocAction id]
    else SyncAction.getDocAction id :: doUploadSearchPhase title searchOk searchFound blobSize
  | none => doUploadSearchPhase title searchOk searchFound blobSize

/-- The `doUpload` variant of `useDewSync.ts` that passes the loaded file to
`uploadDocument` directly: after the stored-id verification there is no
search step and no size check before the upload call. -/
def doUploadDirect (storedId : Option String) (getDocOk : Bool) (fileSize : Nat) :
    List SyncAction :=
  match storedId with
  | some id =>
    if getDocOk then [SyncAction.getDocAction id]
    else SyncAction.getDocAction id :: [SyncAction.uploadAction fileSize]
  | none => [SyncAction.uploadAction fileSize]

/-- The per-book body of `pushLibrary` (useDewLibrarySync): deleted books are
skipped, a title search hit short-circuits, and the upload runs behind the
`blob.size === 0` guard. -/
def pushLibraryStep (book : Book) (searchOk : Bool) (searchFound : Option String)
    (blobSize : Nat) : List SyncAction :=
  if numTruthy book.deletedAt then []
  else
    SyncAction.searchAction book.title ::
      (if searchOk && strTruthyOpt searchFound then []
       else if blobSize = 0 then []
       else [SyncAction.uploadAction blobSize])

/-! ## Concrete instances used by witnesses and counterexamples -/

/-- A concrete local book on page 3 of 10. -/
def w4book : Book :=
  { hash := "h", title := "t", author := "a", format := "EPUB",
    progress := some (3, 10), readingStatus := none,
    createdAt := 0, updatedAt := 0, deletedAt := none }

/-- The progress payload `progressToUpdate` builds for `w4book`. -/
def w4update : ProgressUpdate :=
  { documentId := "d", currentPage := 2, status := none }

/-- A remote document snapshot echoing `w4update`'s 0-based page. -/
def w4doc : DewDocument :=
  { id := "d", title := "t", author := "a", mimeType := none,
    totalPages := some 10, currentPage := some 2, readingStatus := none,
    createdAt := 0, updatedAt := 0 }

/-- A local annotation with `updatedAt = 100` and no `deletedAt`. -/
def w2local : BookNote :=
  { id := "n1", bookHash := "bh", type := "annotation", cfi := "c",
    text := some ("quoted"), style := none, color := none, note := "hello",
    createdAt := 50, updatedAt := 100, deletedAt := none }

/-- Merge state holding just `w2local`. -/
def w2state : NotesMergeState :=
  { booknotes := [w2local], dewSyncedNoteIds := [], changed := false }

/-- A remote note carrying an origin-local-identifier and a deletion marker
timestamped `d`. -/
def w2del (d : Nat) : DewNote :=
  { id := "r1", content := "",
    metadata := some
      { cfi := none, style := none, color := none, type := none, text := none,
        leafNoteId := some ("n1"), updatedAt := some 80, deletedAt := some d },
    createdAt := 0, updatedAt := 80 }

/-- A remote note with an origin-local-identifier, no deletion marker, and
logical `updatedAt = u`. -/
def w3note (u : Nat) : DewNote :=
  { id := "r2", content := "Note: remote",
    metadata := some
      { cfi := some ("c"), style := none, color := none, type := some ("annotation"),
        text := some ("quoted"), leafNoteId := some ("n1"), updatedAt := some u,
        deletedAt := none },
    createdAt := 0, updatedAt := 1 }

/-- A remote document used by the library-pass instances. -/
def c5doc : DewDocument :=
  { id := "d1", title := "A Title", author := "An Author", mimeType := none,
    totalPages := none, currentPage := none, readingStatus := none,
    createdAt := 0, updatedAt := 0 }

/-- A library pass state with an empty library and cursor at time 1. -/
def c5state : LibraryPass :=
  { library := [], cursor := some 1 }

/-- A download oracle that fails with a network error on every document. -/
def c5dlFail : DewDocument → DewResult Blob :=
  fun _ => { success := false, data := none, isNetworkError := true }

/-- An importer oracle that never imports. -/
def c5impNone : DewDocument → List Book → Option Book :=
  fun _ _ => none

/-- A 5-byte download payload. -/
def w6blob : Blob :=
  { size := 5 }

/-- The local book produced by importing `c5doc`'s file. -/
def w6book : Book :=
  { hash := "h6", title := "A Title", author := "An Author", format := "EPUB",
    progress := none, readingStatus := none, createdAt := 0, updatedAt := 0,
    deletedAt := none }

/-- A pushable local excerpt note. -/
def w8note : BookNote :=
  { id := "n8", bookHash := "bh", type := "excerpt", cfi := "c",
    text := some ("quote"), style := none, color := none, note := "",
    createdAt := 0, updatedAt := 1, deletedAt := none }

/-- An `addNote` oracle that succeeds and returns remote id `r8`. -/
def w8outcome : BookNote → AddNoteResult :=
  fun _ => { success := true, id := some ("r8"), isNetworkError := false }

/-- A note with quoted text, an annotation body, and style metadata, used to
exercise the content round-trip. -/
def w10note : BookNote :=
  { id := "n10", bookHash := "bh", type := "annotation", cfi := "c",
    text := some ("some quoted line"), style := some ("highlight"),
    color := some ("yellow"), note := "my thought",
    createdAt := 0, updatedAt := 1, deletedAt := none }

/-! ## Helper lemmas -/

theorem lookupAssoc_setAssoc_self (l : List (String × String)) (k v : String) :
    lookupAssoc (setAssoc l k v) k = some v := by
  induction l with
  | nil => simp [setAssoc, lookupAssoc]
  | cons kv l ih =>
    by_cases h : kv.1 = k
    · simp [setAssoc, lookupAssoc, h]
    · simp [setAssoc, lookupAssoc, h, ih]

theorem lookupAssoc_setAssoc_ne (l : List (String × String)) (k k' v : String)
    (h : k' ≠ k) : lookupAssoc (setAssoc l k' v) k = lookupAssoc l k := by
  induction l with
  | nil => simp [setAssoc, lookupAssoc, h]
  | cons kv l ih =>
    by_cases hk : kv.1 = k'
    · simp [setAssoc, lookupAssoc, hk, h]
    · simp [setAssoc, lookupAssoc, hk, ih]

theorem setAssoc_of_lookupAssoc (l : List (String × String)) (k v : String)
    (h : lookupAssoc l k = some v) : setAssoc l k v = l := by
  induction l with
  | nil => simp [lookupAssoc] at h
  | cons kv l ih =>
    obtain ⟨k1, v1⟩ := kv
    by_cases hk : k1 = k
    · subst hk
      simp [lookupAssoc] at h
      simp [setAssoc, h]
    · simp [lookupAssoc, hk] at h
      simp [setAssoc, hk, ih h]

theorem setAssoc_idem (l : List (String × String)) (k v : String) :
    setAssoc (setAssoc l k v) k v = setAssoc l k v :=
  setAssoc_of_lookupAssoc _ _ _ (lookupAssoc_setAssoc_self l k v)

theorem findIndex_lt_length {p : α → Bool} :
    ∀ {l : List α} {i : Nat}, findIndex p l = some i → i < l.length := by
  intro l
  induction l with
  | nil => intro i h; simp [findIndex] at h
  | cons a l ih =>
    intro i h
    by_cases ha : p a
    · simp [findIndex, ha] at h
      simp only [List.length_cons]
      omega
    · simp [findIndex, ha] at h
      obtain ⟨j, hj, rfl⟩ := h
      have := ih hj
      simp only [List.length_cons]
      omega

theorem findIndex_set_self {p : α → Bool} :
    ∀ {l : List α} {i : Nat} {v : α}, findIndex p l = some i → p v = true →
      findIndex p (l.set i v) = some i := by
  intro l
  induction l with
  | nil => intro i v h _; simp [findIndex] at h
  | cons a l ih =>
    intro i v h hv
    by_cases ha : p a
    · simp [findIndex, ha] at h
      subst h
      simp [List.set, findIndex, hv]
    · simp [findIndex, ha] at h
      obtain ⟨j, hj, rfl⟩ := h
      simp [List.set, findIndex, ha, ih hj hv]

theorem getElemQ_set_self :
    ∀ (l : List α) (i : Nat) (v : α), i < l.length → (l.set i v)[i]? = some v := by
  intro l
  induction l with
  | nil => intro i v h; simp at h
  | cons a l ih =>
    intro i v h
    cases i with
    | zero => simp [List.set]
    | succ j =>
      simp [List.set]
      exact ih j v (by simpa using h)

theorem mem_set_self : ∀ (l : List α) (i : Nat) (v : α), i < l.length → v ∈ l.set i v := by
  intro l
  induction l with
  | nil => intro i v h; simp at h
  | cons a l ih =>
    intro i v h
    cases i with
    | zero => simp [List.set]
    | succ j =>
      simp [List.set]
      right
      exact ih j v (by simpa using h)

theorem findSome?_append {f : α → Option β} (l₁ l₂ : List α) :
    List.findSome? f (l₁ ++ l₂) =
      match List.findSome? f l₁ with
      | some b => some b
      | none => List.findSome? f l₂ := by
  induction l₁ with
  | nil => simp [List.findSome?]
  | cons a l ih =>
    cases hfa : f a with
    | some b => simp [List.findSome?, hfa]
    | none => simp [List.findSome?, hfa, ih]

theorem findSome?_eq_none_of {f : α → Option β} {l : List α}
    (h : ∀ a ∈ l, f a = none) : List.findSome? f l = none := by
  induction l with
  | nil => simp [List.findSome?]
  | cons a l ih =>
    have ha := h a (by simp)
    simp [List.findSome?, ha]
    exact fun x hx => h x (by simp [hx])

theorem splitNl_ne_nil : ∀ (l : List Char), splitNl l ≠ [] := by
  intro l
  induction l with
  | nil => simp [splitNl]
  | cons c cs ih =>
    simp only [splitNl]
    cases h : splitNl cs with
    | nil => exact absurd h ih
    | cons x xs => by_cases hc : c = '\n' <;> simp [hc]

theorem splitNl_no_newline : ∀ (l : List Char), '\n' ∉ l → splitNl l = [l] := by
  intro l
  induction l with
  | nil => intro _; rfl
  | cons c cs ih =>
    intro h
    have hc : c ≠ '\n' := fun hc => h (by simp [hc])
    have hcs : '\n' ∉ cs := fun hm => h (by simp [hm])
    simp only [splitNl, ih hcs]
    simp [hc]

theorem splitNl_append_newline : ∀ (a b : List Char),
    splitNl (a ++ '\n' :: b) = splitNl a ++ splitNl b := by
  intro a b
  induction a with
  | nil =>
    simp only [List.nil_append, splitNl]
    cases hb : splitNl b with
    | nil => exact absurd hb (splitNl_ne_nil b)
    | cons y ys => simp
  | cons c cs ih =>
    simp only [List.cons_append, splitNl, List.append_eq]
    rw [ih]
    cases hcs : splitNl cs with
    | nil => exact absurd hcs (splitNl_ne_nil cs)
    | cons x xs => by_cases hc : c = '\n' <;> simp [hc]

theorem strData_append (a b : String) : (a ++ b).data = a.data ++ b.data := rfl

theorem strMk_data (s : String) : String.mk s.data = s := rfl

theorem splitNl_joinNl : ∀ (parts : List String), parts ≠ [] →
    splitNl (joinNl parts).data = parts.flatMap (fun p => splitNl p.data) := by
  intro parts
  induction parts with
  | nil => intro h; exact absurd rfl h
  | cons p ps ih =>
    intro _
    cases ps with
    | nil => simp [joinNl]
    | cons q rest =>
      have hps : q :: rest ≠ [] := by simp
      have hnl : ("\n" : String).data = ['\n'] := by decide
      have : (joinNl (p :: q :: rest)).data = p.data ++ '\n' :: (joinNl (q :: rest)).data := by
        show (p ++ "\n" ++ joinNl (q :: rest)).data = _
        rw [strData_append, strData_append, hnl, List.append_assoc]
        rfl
      rw [this, splitNl_append_newline, ih hps]
      simp

/-! ## Claim theorems -/

/-- **C4** Progress round-trip is exact: for every integer `p ≥ 1`, a local
1-based page `p` converted to the remote 0-based page by `progressToUpdate`
and converted back to 1-based by `dewDocumentToBook` yields `p` again. -/
theorem dewC4 (p t : Int) (hp : 1 ≤ p) (documentId : String) (book : Book)
    (hbook : book.progress = some (p, t)) (u : ProgressUpdate)
    (hu : progressToUpdate documentId book = some u)
    (doc : DewDocument) (hc : doc.currentPage = some u.currentPage)
    (ht : doc.totalPages = some t) :
    (dewDocumentToBook doc).progress = some (p, t) := by
  have hcur : u.currentPage = max 0 (p - 1) := by
    rw [progressToUpdate, hbook] at hu
    simp at hu
    rw [← hu]
  have hmax : max 0 (p - 1) + 1 = p := by omega
  simp [dewDocumentToBook, hc, ht, hcur, hmax]

theorem dewC4_witness : (dewDocumentToBook w4doc).progress = some (3, 10) :=
  dewC4 3 10 (by decide) "d" w4book rfl w4update rfl w4doc rfl rfl

/-- **C1** Furthest-progress-wins: on a progress pull carrying both remote
page fields, the 1-based converted remote page is applied to local progress
iff the remote update time is strictly newer than the progress cursor and the
converted page strictly greater than the local current page; otherwise local
progress is untouched; in both cases the cursor is advanced to `now`. -/
theorem dewC1 (remoteUpdatedAt : Nat) (rc rt : Int) (remoteStatus : Option String)
    (st : ProgressPullState) (now : Nat) :
    ((remoteUpdatedAt > st.cursor ∧ rc + 1 > localCurrentPage st) →
      (pullProgressOnOpen remoteUpdatedAt (some rc) (some rt) remoteStatus st now).progress
        = some (rc + 1, rt)) ∧
    (¬(remoteUpdatedAt > st.cursor ∧ rc + 1 > localCurrentPage st) →
      (pullProgressOnOpen remoteUpdatedAt (some rc) (some rt) remoteStatus st now).progress
        = st.progress) ∧
    (pullProgressOnOpen remoteUpdatedAt (some rc) (some rt) remoteStatus st now).cursor
      = now := by
  by_cases h : remoteUpdatedAt > st.cursor ∧ rc + 1 > localCurrentPage st
  · refine ⟨fun _ => ?_, fun hc => absurd h hc, ?_⟩ <;> simp [pullProgressOnOpen, h]
  · refine ⟨fun hc => absurd hc h, fun _ => ?_, ?_⟩ <;> simp [pullProgressOnOpen, h]

theorem dewC1_witness :
    ((10 > 5 ∧ (15 : Int) > localCurrentPage ⟨some (10, 300), 5, none⟩) →
      (pullProgressOnOpen 10 (some 14) (some 300) none ⟨some (10, 300), 5, none⟩ 20).progress
        = some (15, 300)) ∧
    (pullProgressOnOpen 10 (some 14) (some 300) none ⟨some (10, 300), 5, none⟩ 20).progress
      = some (15, 300) :=
  ⟨fun _ => ((dewC1 10 14 300 none ⟨some (10, 300), 5, none⟩ 20).1 (by decide)),
   (dewC1 10 14 300 none ⟨some (10, 300), 5, none⟩ 20).1 (by decide)⟩

/-- **C7** The claim that every `uploadDocument` caller guards against an
empty payload fails on the `doUpload` variant of `useDewSync.ts` that passes
the loaded file directly: with no stored document id and a 0-byte file it
issues an upload of 0 bytes (the repository's own integration notes state
empty files are skipped before any network call). -/
theorem dewC7_violation : SyncAction.uploadAction 0 ∈ doUploadDirect none true 0 := by
  simp [doUploadDirect]

/-- **C9** Notes cursor advancement: a successful notes pull advances
`dewLastNotesSyncAt` to `now` whether or not any note changed (including an
empty batch), while a failed batch fetch leaves the configuration — cursor
included — unchanged. -/
theorem dewC9 (fetch : DewResult (List DewNote)) (bookHash : String)
    (cfg : NotesConfig) (now : Nat) :
    ((fetch.success = false ∨ fetch.data = none) →
        pullNotesOnOpen fetch bookHash cfg now = cfg) ∧
    (∀ remoteNotes, fetch.success = true → fetch.data = some remoteNotes →
        (pullNotesOnOpen fetch bookHash cfg now).dewLastNotesSyncAt = some now) := by
  obtain ⟨s, d, n⟩ := fetch
  constructor
  · rintro (h | h) <;> simp_all [pullNotesOnOpen]
  · rintro notes hs hd
    simp at hs hd
    subst hs hd
    simp only [pullNotesOnOpen]
    split
    · rfl
    · split <;> rfl

theorem dewC9_witness :
    (pullNotesOnOpen ⟨true, some [], false⟩ "h" ⟨[], [], none⟩ 42).dewLastNotesSyncAt
        = some 42 ∧
    pullNotesOnOpen ⟨false, none, true⟩ "h" ⟨[], [], some 7⟩ 42 = ⟨[], [], some 7⟩ :=
  ⟨(dewC9 ⟨true, some [], false⟩ "h" ⟨[], [], none⟩ 42).2 [] rfl rfl,
   (dewC9 ⟨false, none, true⟩ "h" ⟨[], [], some 7⟩ 42).1 (Or.inl rfl)⟩

/-- **C2** Soft-delete precedence: when a notes pull meets a remote note
carrying an origin-local-identifier and a deletion marker and the local note
exists, a strictly newer local `updatedAt` keeps the state unchanged
(un-delete wins); otherwise the local note's `deletedAt` is set to the remote
deletion time. -/
theorem dewC2 (bookHash : String) (st : NotesMergeState) (rn : DewNote)
    (m : NoteMetadata) (lid : String) (i : Nat) (ln : BookNote) (d : Nat)
    (hm : rn.metadata = some m) (hl : m.leafNoteId = some lid) (hlne : lid ≠ "")
    (hfind : findIndex (fun n => n.id == lid) st.booknotes = some i)
    (hget : st.booknotes[i]? = some ln)
    (hdel : m.deletedAt = some d) (hd0 : d ≠ 0) :
    (ln.updatedAt > d → mergeRemoteNote bookHash st rn = st) ∧
    (¬ ln.updatedAt > d →
      (mergeRemoteNote bookHash st rn).booknotes
        = st.booknotes.set i { ln with deletedAt := some d }) := by
  have htr : optTruthy m.leafNoteId = true := by simp [optTruthy, hl, hlne]
  have hoe : optOrEmpty m.leafNoteId = lid := by simp [optOrEmpty, hl]
  have hnum : numTruthy (some d) = true := by simp [numTruthy, hd0]
  constructor <;> intro h <;>
    simp [mergeRemoteNote, hm, htr, hoe, hfind, hget, hnum, hdel, h]

theorem dewC2_witness :
    mergeRemoteNote ("bh") w2state (w2del 90) = w2state ∧
    (mergeRemoteNote ("bh") w2state (w2del 110)).booknotes
      = [{ w2local with deletedAt := some 110 }] := by
  constructor
  · exact (dewC2 ("bh") w2state (w2del 90) _ ("n1") 0 w2local 90 rfl rfl (by decide)
      (by decide) (by decide) rfl (by decide)).1 (by decide)
  · have h := (dewC2 ("bh") w2state (w2del 110) _ ("n1") 0 w2local 110 rfl rfl (by decide)
      (by decide) (by decide) rfl (by decide)).2 (by decide)
    simpa [w2state] using h

/-- **C3** Notes last-writer-wins with ties favouring local: for a remote
note with an origin-local-identifier and no deletion marker whose local
counterpart exists, the remote note overwrites the local one iff its logical
`updatedAt` is strictly greater; otherwise (ties included) the local notes
are untouched; and merging the same remote note a second time changes
nothing. -/
theorem dewC3 (bookHash : String) (st : NotesMergeState) (rn : DewNote)
    (m : NoteMetadata) (lid : String) (i : Nat) (ln : BookNote)
    (hm : rn.metadata = some m) (hl : m.leafNoteId = some lid) (hlne : lid ≠ "")
    (hfind : findIndex (fun n => n.id == lid) st.booknotes = some i)
    (hget : st.booknotes[i]? = some ln)
    (hdel : numTruthy m.deletedAt = false) :
    (metaUpdatedAt m rn.updatedAt > ln.updatedAt →
      (mergeRemoteNote bookHash st rn).booknotes
        = st.booknotes.set i (dewNoteToBookNote rn bookHash)) ∧
    (¬ metaUpdatedAt m rn.updatedAt > ln.updatedAt →
      (mergeRemoteNote bookHash st rn).booknotes = st.booknotes) ∧
    mergeRemoteNote bookHash (mergeRemoteNote bookHash st rn) rn
      = mergeRemoteNote bookHash st rn := by
  have htr : optTruthy m.leafNoteId = true := by simp [optTruthy, hl, hlne]
  have hoe : optOrEmpty m.leafNoteId = lid := by simp [optOrEmpty, hl]
  have hrbnid : (dewNoteToBookNote rn bookHash).id = lid := by
    simp [dewNoteToBookNote, hm, htr, hoe]
  have hrbnupd : (dewNoteToBookNote rn bookHash).updatedAt
      = metaUpdatedAt m rn.updatedAt := by
    simp [dewNoteToBookNote, hm, htr]
  by_cases h : metaUpdatedAt m rn.updatedAt > ln.updatedAt
  · have hres : mergeRemoteNote bookHash st rn =
        { booknotes := st.booknotes.set i (dewNoteToBookNote rn bookHash)
          dewSyncedNoteIds := setAssoc st.dewSyncedNoteIds lid rn.id
          changed := true } := by
      simp [mergeRemoteNote, hm, htr, hoe, hfind, hget, hdel, h]
    have hfind2 : findIndex (fun n => n.id == lid)
        (st.booknotes.set i (dewNoteToBookNote rn bookHash)) = some i :=
      findIndex_set_self hfind (by simp [hrbnid])
    have hget2 : (st.booknotes.set i (dewNoteToBookNote rn bookHash))[i]?
        = some (dewNoteToBookNote rn bookHash) :=
      getElemQ_set_self _ i _ (findIndex_lt_length hfind)
    refine ⟨fun _ => by simp [hres], fun hc => absurd h hc, ?_⟩
    rw [hres]
    simp [mergeRemoteNote, hm, htr, hoe, hfind2, hget2, hdel, hrbnupd, setAssoc_idem]
  · have hres : mergeRemoteNote bookHash st rn =
        { st with dewSyncedNoteIds := setAssoc st.dewSyncedNoteIds lid rn.id } := by
      simp [mergeRemoteNote, hm, htr, hoe, hfind, hget, hdel, h]
    refine ⟨fun hc => absurd hc h, fun _ => by simp [hres], ?_⟩
    rw [hres]
    simp [mergeRemoteNote, hm, htr, hoe, hfind, hget, hdel, h, setAssoc_idem]

theorem dewC3_witness :
    (mergeRemoteNote ("bh") w2state (w3note 100)).booknotes = w2state.booknotes ∧
    (mergeRemoteNote ("bh") w2state (w3note 150)).booknotes
      = [dewNoteToBookNote (w3note 150) "bh"] ∧
    mergeRemoteNote ("bh") (mergeRemoteNote ("bh") w2state (w3note 100)) (w3note 100)
      = mergeRemoteNote ("bh") w2state (w3note 100) := by
  refine ⟨?_, ?_, ?_⟩
  · exact (dewC3 ("bh") w2state (w3note 100) _ ("n1") 0 w2local rfl rfl (by decide)
      (by decide) (by decide) (by decide)).2.1 (by decide)
  · have h := (dewC3 ("bh") w2state (w3note 150) _ ("n1") 0 w2local rfl rfl (by decide)
      (by decide) (by decide) (by decide)).1 (by decide)
    simpa [w2state] using h
  · exact (dewC3 ("bh") w2state (w3note 100) _ ("n1") 0 w2local rfl rfl (by decide)
      (by decide) (by decide) (by decide)).2.2

theorem mergeImportedBook_title (doc : DewDocument) (b : Book) (now : Nat) :
    (mergeImportedBook doc b now).title = b.title := by
  simp only [mergeImportedBook]
  split <;> split <;> rfl

theorem mergeImportedBook_author (doc : DewDocument) (b : Book) (now : Nat) :
    (mergeImportedBook doc b now).author = b.author := by
  simp only [mergeImportedBook]
  split <;> split <;> rfl

theorem mergeImportedBook_deletedAt (doc : DewDocument) (b : Book) (now : Nat) :
    (mergeImportedBook doc b now).deletedAt = b.deletedAt := by
  simp only [mergeImportedBook]
  split <;> split <;> rfl

theorem find?_some_of_mem {p : α → Bool} {l : List α} {a : α}
    (ha : a ∈ l) (hp : p a = true) : ∃ y, l.find? p = some y := by
  cases hf : l.find? p with
  | some y => exact ⟨y, rfl⟩
  | none =>
    rw [List.find?_eq_none] at hf
    exact absurd hp (by simpa using hf a ha)

theorem processRemoteDocument_skip {doc : DewDocument} {L : List Book} {y : Book}
    (hy : L.find? (libraryMatch doc) = some y)
    (store : List Book) (dl : DewResult Blob) (imp : Option Book) (now : Nat) :
    processRemoteDocument doc L store dl imp now = (store, false) := by
  simp only [processRemoteDocument, hy]

theorem pullLibrary_single {doc : DewDocument} {L : List Book}
    (dlf : DewDocument → DewResult Blob) (impf : DewDocument → List Book → Option Book)
    (now : Nat) (cur : Option Nat)
    (h : processRemoteDocument doc L L (dlf doc) (impf doc L) now = (L, false)) :
    (pullLibrary { library := L, cursor := cur }
        { success := true, data := some [doc], isNetworkError := false }
        dlf impf now).library = L := by
  simp only [pullLibrary, List.isEmpty_cons, Bool.false_eq_true, if_false,
    List.foldl_cons, List.foldl_nil, h]

/-- **C5 counterexample** A pass whose only item fails (the download returns
a network error) still advances the library cursor: with the cursor at time 1
and `now = 2`, the pass moves the cursor even though its single item was
skipped, contradicting the all-or-nothing reading of the claim. -/
theorem dewC5_counterexample :
    (pullLibrary c5state { success := true, data := some [c5doc], isNetworkError := false }
        c5dlFail c5impNone 2).cursor ≠ c5state.cursor := by
  decide

/-- **C5 (amended)** The library cursor is advanced to the pass's snapshot
time exactly when the batch fetch succeeds with a non-empty list — even when
individual items fail, since they are skipped without aborting the pass —
while a failed batch fetch or an empty batch leaves the state (cursor and
library) unchanged. -/
theorem dewC5 (st : LibraryPass) (fetch : DewResult (List DewDocument))
    (download : DewDocument → DewResult Blob)
    (importResult : DewDocument → List Book → Option Book) (now : Nat) :
    (∀ docs, fetch.success = true → fetch.data = some docs → docs ≠ [] →
      (pullLibrary st fetch download importResult now).cursor = some now) ∧
    ((fetch.success = false ∨ fetch.data = none ∨ fetch.data = some []) →
      pullLibrary st fetch download importResult now = st) := by
  obtain ⟨s, dta, n⟩ := fetch
  constructor
  · rintro docs hs hd hne
    simp at hs hd
    subst hs
    subst hd
    have hemp : docs.isEmpty = false := by
      cases docs with
      | nil => exact absurd rfl hne
      | cons a l => rfl
    simp [pullLibrary, hemp]
  · rintro (h | h | h)
    · simp at h
      subst h
      simp [pullLibrary]
    · simp at h
      subst h
      cases s <;> simp [pullLibrary]
    · simp at h
      subst h
      cases s <;> simp [pullLibrary]

theorem dewC5_witness :
    (pullLibrary c5state { success := true, data := some [c5doc], isNetworkError := false }
        c5dlFail c5impNone 2).cursor = some 2 :=
  (dewC5 c5state { success := true, data := some [c5doc], isNetworkError := false }
      c5dlFail c5impNone 2).1 [c5doc] rfl rfl (by decide)

/-- **C6** Library pull dedup idempotence: when the first pass over a remote
document imports a book whose normalised title/author match the document and
which is not deleted, a second pass over the same document skips it before
any download or import — no import is flagged, the library is unchanged — and
hence a second `pullLibrary` over the same singleton batch leaves the library
exactly as the first pass left it. -/
theorem dewC6 (doc : DewDocument) (lib : List Book) (blob : Blob) (ib : Book) (now : Nat)
    (hnomatch : ∀ b ∈ lib, libraryMatch doc b = false)
    (hblob : blob.size ≠ 0)
    (htitle : normalizeMeta ib.title = normalizeMeta doc.title)
    (hauthor : normalizeMeta ib.author = normalizeMeta doc.author)
    (hdel : numTruthy ib.deletedAt = false) :
    (processRemoteDocument doc lib lib
        { success := true, data := some blob, isNetworkError := false } (some ib) now).2
      = true ∧
    (∀ (dl₂ : DewResult Blob) (imp₂ : Option Book) (now₂ : Nat),
      processRemoteDocument doc
          (processRemoteDocument doc lib lib
            { success := true, data := some blob, isNetworkError := false } (some ib) now).1
          (processRemoteDocument doc lib lib
            { success := true, data := some blob, isNetworkError := false } (some ib) now).1
          dl₂ imp₂ now₂
        = ((processRemoteDocument doc lib lib
            { success := true, data := some blob, isNetworkError := false } (some ib) now).1,
           false)) ∧
    (∀ (dlf : DewDocument → DewResult Blob)
        (impf : DewDocument → List Book → Option Book) (now₂ : Nat) (cur : Option Nat),
      (pullLibrary
          { library := (processRemoteDocument doc lib lib
              { success := true, data := some blob, isNetworkError := false } (some ib) now).1
            cursor := cur }
          { success := true, data := some [doc], isNetworkError := false } dlf impf now₂).library
        = (processRemoteDocument doc lib lib
            { success := true, data := some blob, isNetworkError := false } (some ib) now).1) := by
  have hfindnone : lib.find? (libraryMatch doc) = none :=
    List.find?_eq_none.mpr (fun x hx => by simp [hnomatch x hx])
  have hmatch : libraryMatch doc (mergeImportedBook doc ib now) = true := by
    simp [libraryMatch, mergeImportedBook_title, mergeImportedBook_author,
      mergeImportedBook_deletedAt, htitle, hauthor, hdel]
  have hfirst : processRemoteDocument doc lib lib
      { success := true, data := some blob, isNetworkError := false } (some ib) now
      = (match findIndex (fun b => b.hash == (mergeImportedBook doc ib now).hash) lib with
         | some bookIdx => (lib.set bookIdx (mergeImportedBook doc ib now), true)
         | none => (lib ++ [mergeImportedBook doc ib now], true)) := by
    simp only [processRemoteDocument, hfindnone]
    rw [if_neg hblob]
  cases hidx : findIndex (fun b => b.hash == (mergeImportedBook doc ib now).hash) lib with
  | some i =>
    simp only [hidx] at hfirst
    rw [hfirst]
    have hmem : mergeImportedBook doc ib now ∈ lib.set i (mergeImportedBook doc ib now) :=
      mem_set_self _ _ _ (findIndex_lt_length hidx)
    obtain ⟨y, hy⟩ := find?_some_of_mem hmem hmatch
    exact ⟨rfl, fun dl₂ imp₂ now₂ => processRemoteDocument_skip hy _ dl₂ imp₂ now₂,
      fun dlf impf now₂ cur =>
        pullLibrary_single dlf impf now₂ cur (processRemoteDocument_skip hy _ _ _ now₂)⟩
  | none =>
    simp only [hidx] at hfirst
    rw [hfirst]
    have hmem : mergeImportedBook doc ib now ∈ lib ++ [mergeImportedBook doc ib now] := by
      simp
    obtain ⟨y, hy⟩ := find?_some_of_mem hmem hmatch
    exact ⟨rfl, fun dl₂ imp₂ now₂ => processRemoteDocument_skip hy _ dl₂ imp₂ now₂,
      fun dlf impf now₂ cur =>
        pullLibrary_single dlf impf now₂ cur (processRemoteDocument_skip hy _ _ _ now₂)⟩

theorem dewC6_witness :
    (pullLibrary
        { library := (processRemoteDocument c5doc [] []
            { success := true, data := some w6blob, isNetworkError := false } (some w6book) 3).1
          cursor := some 3 }
        { success := true, data := some [c5doc], isNetworkError := false }
        c5dlFail c5impNone 4).library
      = (processRemoteDocument c5doc [] []
          { success := true, data := some w6blob, isNetworkError := false } (some w6book) 3).1 :=
  (dewC6 c5doc [] w6blob w6book 3 (by simp) (by decide) rfl rfl rfl).2.2 c5dlFail c5impNone 4 (some 3)

theorem lookupAssoc_mem :
    ∀ {l : List (String × String)} {k v : String},
      lookupAssoc l k = some v → ∃ k', (k', v) ∈ l := by
  intro l
  induction l with
  | nil => intro k v h; simp [lookupAssoc] at h
  | cons kv l ih =>
    intro k v h
    by_cases hk : kv.1 = k
    · simp [lookupAssoc, hk] at h
      exact ⟨kv.1, by simp [← h]⟩
    · simp [lookupAssoc, hk] at h
      obtain ⟨k', hk'⟩ := ih h
      exact ⟨k', by simp [hk']⟩

theorem lookupAssoc_recordPushResult_ne (acc : List (String × String)) (m : BookNote)
    (r : AddNoteResult) (k : String) (hk : m.id ≠ k) :
    lookupAssoc (recordPushResult acc m r) k = lookupAssoc acc k := by
  unfold recordPushResult
  split
  · exact lookupAssoc_setAssoc_ne _ _ _ _ hk
  · rfl

theorem lookupAssoc_fold_untouched (outcome : BookNote → AddNoteResult) :
    ∀ (l : List BookNote) (acc : List (String × String)) (k : String),
      (∀ m ∈ l, m.id ≠ k) →
      lookupAssoc (l.foldl (fun acc note => recordPushResult acc note (outcome note)) acc) k
        = lookupAssoc acc k := by
  intro l
  induction l with
  | nil => intro acc k _; rfl
  | cons m ms ih =>
    intro acc k h
    simp only [List.foldl_cons]
    rw [ih _ k (fun x hx => h x (List.mem_cons_of_mem _ hx)),
      lookupAssoc_recordPushResult_ne _ _ _ _ (h m (List.mem_cons_self _ _))]

theorem lookupAssoc_fold_record (outcome : BookNote → AddNoteResult) :
    ∀ (l : List BookNote) (acc : List (String × String)) (n : BookNote),
      n ∈ l → (l.map (fun x => x.id)).Nodup → (outcome n).success = true →
      lookupAssoc (l.foldl (fun acc note => recordPushResult acc note (outcome note)) acc) n.id
        = some (if optOrEmpty (outcome n).id ≠ "" then optOrEmpty (outcome n).id else n.id) := by
  intro l
  induction l with
  | nil => intro acc n h; simp at h
  | cons m ms ih =>
    intro acc n hmem hnodup hsucc
    simp only [List.map_cons, List.nodup_cons] at hnodup
    obtain ⟨hmid, hmsnodup⟩ := hnodup
    simp only [List.foldl_cons]
    rcases List.mem_cons.mp hmem with heq | hmem'
    · subst heq
      have hids : ∀ x ∈ ms, x.id ≠ n.id := by
        intro x hx hcontra
        exact hmid (by rw [← hcontra]; exact List.mem_map_of_mem _ hx)
      rw [lookupAssoc_fold_untouched outcome ms _ n.id hids]
      unfold recordPushResult
      rw [if_pos hsucc]
      exact lookupAssoc_setAssoc_self _ _ _
    · exact ih _ n hmem' hmsnodup hsucc

/-- **C8** Notes push selection and synced-map recording: the attempted batch
is exactly the local notes of annotation/excerpt kind with no soft-delete,
non-empty text, and no entry in the synced-identifier map; and for each
attempted note whose `addNote` call succeeds, the resulting map records the
returned remote identifier, falling back to the note's own local identifier
when the create step delivered none. -/
theorem dewC8 (booknotes : List BookNote) (syncedIds : List (String × String))
    (outcome : BookNote → AddNoteResult)
    (hvals : ∀ kv ∈ syncedIds, kv.2 ≠ "")
    (hnodup : (booknotes.map (fun n => n.id)).Nodup) :
    (∀ n, n ∈ (pushNewNotes booknotes syncedIds outcome).1 ↔
      (n ∈ booknotes ∧ (n.type = "annotation" ∨ n.type = "excerpt") ∧
        numTruthy n.deletedAt = false ∧ optTruthy n.text = true ∧
        lookupAssoc syncedIds n.id = none)) ∧
    (∀ n, n ∈ (pushNewNotes booknotes syncedIds outcome).1 → (outcome n).success = true →
      lookupAssoc (pushNewNotes booknotes syncedIds outcome).2 n.id
        = some (if optOrEmpty (outcome n).id ≠ "" then optOrEmpty (outcome n).id else n.id)) := by
  have hlk : ∀ k : String,
      strTruthyOpt (lookupAssoc syncedIds k) = false ↔ lookupAssoc syncedIds k = none := by
    intro k
    cases hl : lookupAssoc syncedIds k with
    | none => simp [strTruthyOpt]
    | some v =>
      obtain ⟨k', hk'⟩ := lookupAssoc_mem hl
      have hv : v ≠ "" := hvals (k', v) hk'
      simp [strTruthyOpt, hv]
  constructor
  · intro n
    simp only [pushNewNotes, List.mem_filter, notesPushFilter]
    rw [Bool.and_eq_true, Bool.and_eq_true, Bool.and_eq_true]
    constructor
    · rintro ⟨hb, ⟨⟨ht, hd⟩, hx⟩, hs⟩
      refine ⟨hb, ?_, ?_, hx, ?_⟩
      · rcases Bool.or_eq_true _ _ |>.mp ht with h | h
        · exact Or.inl (by simpa using h)
        · exact Or.inr (by simpa using h)
      · simpa using hd
      · rw [← hlk n.id]
        simpa using hs
    · rintro ⟨hb, ht, hd, hx, hs⟩
      refine ⟨hb, ⟨⟨?_, by simp [hd]⟩, hx⟩, ?_⟩
      · rcases ht with h | h <;> simp [h]
      · simp [hlk n.id, hs, strTruthyOpt]
  · intro n hn hsucc
    have hfnodup : ((booknotes.filter (notesPushFilter syncedIds)).map (fun x => x.id)).Nodup :=
      List.Nodup.sublist (List.Sublist.map _ (List.filter_sublist _)) hnodup
    exact lookupAssoc_fold_record outcome _ syncedIds n hn hfnodup hsucc

theorem dewC8_witness :
    lookupAssoc (pushNewNotes [w8note] [] w8outcome).2 "n8" = some ("r8") := by
  have h := (dewC8 [w8note] [] w8outcome (by simp) (by simp)).2 w8note (by decide) rfl
  simpa [w8note, w8outcome, optOrEmpty] using h

theorem dropWhile_eq_self_of_head {l : List Char}
    (h : ∀ c, l.head? = some c → isJsSpace c = false) :
    l.dropWhile isJsSpace = l := by
  cases l with
  | nil => rfl
  | cons c r =>
    have hc := h c rfl
    simp [List.dropWhile_cons, hc]

theorem matchNoteLine_of_note (nc : List Char)
    (hnc : nc ≠ [])
    (h3 : ∀ c, nc.head? = some c → isJsSpace c = false) :
    matchNoteLine ('N' :: 'o' :: 't' :: 'e' :: ':' :: ' ' :: nc) = some nc := by
  have hpre : ("Note:".data).isPrefixOf ('N' :: 'o' :: 't' :: 'e' :: ':' :: ' ' :: nc)
      = true := by
    have h5 : "Note:".data = ['N', 'o', 't', 'e', ':'] := by decide
    rw [h5]
    simp [List.isPrefixOf]
  simp only [matchNoteLine, hpre, if_true]
  have hdrop : ('N' :: 'o' :: 't' :: 'e' :: ':' :: ' ' :: nc).drop 5 = ' ' :: nc := rfl
  rw [hdrop]
  have hsp : isJsSpace ' ' = true := rfl
  rw [List.dropWhile_cons, if_pos hsp, dropWhile_eq_self_of_head h3]
  have hemp : nc.isEmpty = false := by
    cases hn : nc with
    | nil => exact absurd hn hnc
    | cons a l => rfl
  simp [hemp]

theorem matchNoteLine_of_not_prefix {line : List Char}
    (h : ("Note:".data).isPrefixOf line = false) : matchNoteLine line = none := by
  simp [matchNoteLine, h]

theorem findSome?_append_none {f : α → Option β} {l₁ : List α} (l₂ : List α)
    (h : List.findSome? f l₁ = none) :
    List.findSome? f (l₁ ++ l₂) = List.findSome? f l₂ := by
  rw [findSome?_append, h]

theorem findSome?_append_some {f : α → Option β} {l₁ : List α} {b : β} (l₂ : List α)
    (h : List.findSome? f l₁ = some b) :
    List.findSome? f (l₁ ++ l₂) = some b := by
  rw [findSome?_append, h]

/-- **C10** Note-text round-trip: for a note whose `note` field is non-empty,
single-line, and does not start with whitespace, and whose `text` field has
no line beginning with `Note:`, `extractNoteText` applied to the content that
`noteToContent` builds returns exactly the `note` field. -/
theorem dewC10 (note : BookNote)
    (h1 : note.note ≠ "")
    (h2 : '\n' ∉ note.note.data)
    (h3 : ∀ c, note.note.data.head? = some c → isJsSpace c = false)
    (h4 : ∀ line ∈ splitNl (optOrEmpty note.text).data,
      ("Note:".data).isPrefixOf line = false) :
    extractNoteText (noteToContent note) = note.note := by
  have hnc : note.note.data ≠ [] := by
    intro hd
    exact h1 (by rw [← strMk_data note.note, hd])
  have h6 : "Note: ".data = ['N', 'o', 't', 'e', ':', ' '] := by decide
  have hdata : ("Note: " ++ note.note).data
      = 'N' :: 'o' :: 't' :: 'e' :: ':' :: ' ' :: note.note.data := by
    rw [strData_append, h6]
    rfl
  have hB : splitNl (("Note: " ++ note.note).data) = [("Note: " ++ note.note).data] := by
    apply splitNl_no_newline
    rw [hdata]
    intro hmem
    exact h2 (by simpa using hmem)
  have hBfind : List.findSome? matchNoteLine (splitNl (("Note: " ++ note.note).data))
      = some note.note.data := by
    rw [hB, hdata]
    simp [List.findSome?, matchNoteLine_of_note note.note.data hnc h3]
  have hAfind : List.findSome? matchNoteLine
      (splitNl (("> " ++ optOrEmpty note.text).data)) = none := by
    have hdat : ("> " ++ optOrEmpty note.text).data
        = '>' :: ' ' :: (optOrEmpty note.text).data := by
      rw [strData_append]
      rfl
    rw [hdat]
    cases hsp : splitNl (optOrEmpty note.text).data with
    | nil => exact absurd hsp (splitNl_ne_nil _)
    | cons hline t =>
      have hs1 : splitNl (' ' :: (optOrEmpty note.text).data) = (' ' :: hline) :: t := by
        rw [splitNl, hsp]
        simp
      have hs2 : splitNl ('>' :: ' ' :: (optOrEmpty note.text).data)
          = ('>' :: ' ' :: hline) :: t := by
        rw [splitNl, hs1]
        simp
      rw [hs2]
      apply findSome?_eq_none_of
      intro line hl
      rcases List.mem_cons.mp hl with rfl | hlt
      · apply matchNoteLine_of_not_prefix
        have h5 : "Note:".data = ['N', 'o', 't', 'e', ':'] := by decide
        rw [h5]
        simp [List.isPrefixOf]
      · exact matchNoteLine_of_not_prefix
          (h4 line (by rw [hsp]; exact List.mem_cons_of_mem _ hlt))
  have main : ∀ (tpl mpl : List String),
      List.findSome? matchNoteLine (tpl.flatMap fun p => splitNl p.data) = none →
      List.findSome? matchNoteLine
          (splitNl ((joinNl ((tpl ++ ["Note: " ++ note.note]) ++ mpl)).data))
        = some note.note.data := by
    intro tpl mpl hnone
    rw [splitNl_joinNl _ (by simp), List.flatMap_append, List.flatMap_append]
    apply findSome?_append_some
    rw [findSome?_append_none _ hnone]
    simp only [List.flatMap_cons, List.flatMap_nil, List.append_nil]
    exact hBfind
  simp only [extractNoteText, extractNoteChars, noteToContent]
  rw [if_pos h1]
  by_cases htx : optTruthy note.text = true
  · rw [if_pos htx]
    have hA1 : List.findSome? matchNoteLine
        ((["> " ++ optOrEmpty note.text]).flatMap fun p => splitNl p.data) = none := by
      simpa using hAfind
    rw [main _ _ hA1]
  · rw [if_neg htx]
    rw [main [] _ rfl]

theorem dewC10_witness : extractNoteText (noteToContent w10note) = "my thought" := by
  have h := dewC10 w10note (by decide) (by decide)
    (by intro c hc; simp [w10note] at hc; rw [← hc]; rfl)
    (by decide)
  simpa [w10note] using h
